import Mathlib

/-!
Verification of the memory indexing and retrieval engine of `src/supply.js`
(`ContextVectorManager`).  The JavaScript class is shallowly embedded:

* JS numbers occurring as term weights, thresholds and dense-vector entries
  are modelled by `ℚ`; cosine-similarity values (which involve `Math.sqrt`)
  live in `ℝ`.
* Sparse vectors (plain JS objects mapping terms to weights, with unique keys
  in insertion order) are association lists `List (String × ℚ)`.
* Dense vectors (JS arrays of numbers) are `List ℚ`.
* The class instance state (`this.conversationEmbeddings`,
  `this.embeddingMethod`, `this.maxRetrieveCount`,
  `this.minSimilarityThreshold`) is a `ManagerState` record; methods become
  functions threading that state, so mutation (or its absence) is explicit.
* The two asynchronous embedding backends (`getEmbeddingFromAPI`,
  `getEmbeddingFromTransformers`) are external I/O; their outcome at the
  `await` point inside `addConversation` is abstracted by a `BackendResult`
  oracle: `ok v` (the call resolved to the vector value `v`), `missing`
  (the call resolved to `undefined`/`null`), `threw` (the awaited call
  rejected, reaching `addConversation`'s own `catch` block).
* `window.gameState?.conversationHistory`, the ambient global fallback read
  by `buildOptimizedMessages`, is passed explicitly as `globalHistory`.
-/

namespace ContextVectorManager

/-- A CJK ideograph, i.e. a character matched by `[一-龥]` in the
tokenizing regex of `extractKeywords`. -/
def isCJKChar (c : Char) : Bool :=
  decide (0x4e00 ≤ c.toNat) && decide (c.toNat ≤ 0x9fa5)

/-- A Latin letter, i.e. a character matched by `[a-zA-Z]` in the tokenizing
regex of `extractKeywords`. -/
def isLatinChar (c : Char) : Bool :=
  (decide ('a' ≤ c) && decide (c ≤ 'z')) || (decide ('A' ≤ c) && decide (c ≤ 'Z'))

/-- Fuel-indexed worker for `tokenize` (structural recursion on the fuel so
that the kernel can evaluate it; every step consumes at least one character
and exactly one unit of fuel, so `l.length` fuel never runs out). -/
def tokenizeFuel : ℕ → List Char → List String
  | 0, _ => []
  | _, [] => []
  | fuel + 1, c :: cs =>
    if isCJKChar c then
      String.mk (c :: cs.takeWhile isCJKChar) :: tokenizeFuel fuel (cs.dropWhile isCJKChar)
    else if isLatinChar c then
      String.mk (c :: cs.takeWhile isLatinChar) :: tokenizeFuel fuel (cs.dropWhile isLatinChar)
    else
      tokenizeFuel fuel cs

/-- The tokenizer of `extractKeywords`:
`text.match(/[一-龥]+|[a-zA-Z]+/g)` extracts the maximal runs of CJK
ideographs and the maximal runs of Latin letters, every other character acting
as a separator. -/
def tokenize (l : List Char) : List String :=
  tokenizeFuel l.length l

/-- One step of the word-frequency accumulation
`wordFreq[word] = (wordFreq[word] || 0) + 1` on a JS object: if the key is
already present its value is incremented in place, otherwise the key is
appended (JS objects keep string keys in insertion order). -/
def bump : List (String × ℕ) → String → List (String × ℕ)
  | [], w => [(w, 1)]
  | (k, v) :: rest, w =>
    if k = w then (k, v + 1) :: rest else (k, v) :: bump rest w

/-- The frequency table built by the `words.forEach` loop of
`extractKeywords`: single-character words are filtered out
(`if (word.length > 1)`), the rest are counted. -/
def wordFreq (words : List String) : List (String × ℕ) :=
  words.foldl (fun m w => if w.length > 1 then bump m w else m) []

/-- `extractKeywords(text)`: tokenize, count frequencies of the words of
length `> 1`, sort the entries by descending frequency (JS
`sort((a, b) => b[1] - a[1])` is a stable sort, modelled by the stable
`insertionSort`), keep the first 20.  The resulting `(word, weight)` pairs
model the returned `{ word, weight }` records. -/
def extractKeywords (text : String) : List (String × ℕ) :=
  let words := tokenize text.toList
  ((wordFreq words).insertionSort (fun a b => b.2 ≤ a.2)).take 20

/-- `createKeywordVector(text)`: the sparse vector object with one key per
extracted keyword, valued by its weight. -/
def createKeywordVector (text : String) : List (String × ℚ) :=
  (extractKeywords text).map (fun kw => (kw.1, (kw.2 : ℚ)))

/-- A term vector as handled by `calculateCosineSimilarity`: either a sparse
JS object or a dense JS array (distinguished at runtime via
`Array.isArray`). -/
inductive Vec where
  | sparse (entries : List (String × ℚ))
  | dense (entries : List ℚ)
deriving DecidableEq

/-- `vec[key] || 0`: the lookup used by `calculateObjectCosineSimilarity`,
reading a missing key as weight `0`. -/
def lookupWeight (v : List (String × ℚ)) (k : String) : ℚ :=
  match v.find? (fun p => p.1 == k) with
  | some p => p.2
  | none => 0

/-- `new Set([...Object.keys(vec1), ...Object.keys(vec2)])`: the union of the
key sets, in first-occurrence order. -/
def allKeys (v1 v2 : List (String × ℚ)) : List String :=
  (v1.map Prod.fst ++ v2.map Prod.fst).dedup

/-- The final expression of both cosine computations: `0` when either
accumulated squared norm is `0` (the division-by-zero guard), otherwise
`dotProduct / (Math.sqrt(norm1) * Math.sqrt(norm2))`. -/
noncomputable def cosineFromSums (dotProduct norm1 norm2 : ℚ) : ℝ :=
  if norm1 = 0 ∨ norm2 = 0 then 0
  else (dotProduct : ℝ) / (Real.sqrt (norm1 : ℝ) * Real.sqrt (norm2 : ℝ))

/-- The `dotProduct` accumulated by the `allKeys.forEach` loop of
`calculateObjectCosineSimilarity`. -/
def objDot (vec1 vec2 : List (String × ℚ)) : ℚ :=
  ((allKeys vec1 vec2).map (fun k => lookupWeight vec1 k * lookupWeight vec2 k)).sum

/-- The `norm1` accumulated by the `allKeys.forEach` loop (`v1 * v1`). -/
def objNorm1 (vec1 vec2 : List (String × ℚ)) : ℚ :=
  ((allKeys vec1 vec2).map (fun k => lookupWeight vec1 k * lookupWeight vec1 k)).sum

/-- The `norm2` accumulated by the `allKeys.forEach` loop (`v2 * v2`). -/
def objNorm2 (vec1 vec2 : List (String × ℚ)) : ℚ :=
  ((allKeys vec1 vec2).map (fun k => lookupWeight vec2 k * lookupWeight vec2 k)).sum

/-- `calculateObjectCosineSimilarity(vec1, vec2)`: cosine similarity of two
sparse vectors over the union of their keys, returning `0` when either
accumulated squared norm is `0`. -/
noncomputable def calculateObjectCosineSimilarity
    (vec1 vec2 : List (String × ℚ)) : ℝ :=
  cosineFromSums (objDot vec1 vec2) (objNorm1 vec1 vec2) (objNorm2 vec1 vec2)

/-- `vec[i]` for a dense JS array inside the similarity loop (always within
bounds there, since the loop runs to the shorter length). -/
def denseEntry (v : List ℚ) (i : ℕ) : ℚ := v.getD i 0

/-- `len = Math.min(vec1.length, vec2.length)` of
`calculateArrayCosineSimilarity`. -/
def arrLen (vec1 vec2 : List ℚ) : ℕ := min vec1.length vec2.length

/-- The `dotProduct` accumulated by the `for` loop of
`calculateArrayCosineSimilarity`. -/
def arrDot (vec1 vec2 : List ℚ) : ℚ :=
  (Finset.range (arrLen vec1 vec2)).sum (fun i => denseEntry vec1 i * denseEntry vec2 i)

/-- The `norm1` accumulated by the `for` loop (`vec1[i] * vec1[i]`). -/
def arrNorm1 (vec1 vec2 : List ℚ) : ℚ :=
  (Finset.range (arrLen vec1 vec2)).sum (fun i => denseEntry vec1 i * denseEntry vec1 i)

/-- The `norm2` accumulated by the `for` loop (`vec2[i] * vec2[i]`). -/
def arrNorm2 (vec1 vec2 : List ℚ) : ℚ :=
  (Finset.range (arrLen vec1 vec2)).sum (fun i => denseEntry vec2 i * denseEntry vec2 i)

/-- `calculateArrayCosineSimilarity(vec1, vec2)`: cosine similarity of two
dense vectors over the common prefix `len = min(length, length)`, returning
`0` when either accumulated squared norm is `0`. -/
noncomputable def calculateArrayCosineSimilarity (vec1 vec2 : List ℚ) : ℝ :=
  cosineFromSums (arrDot vec1 vec2) (arrNorm1 vec1 vec2) (arrNorm2 vec1 vec2)

/-- `calculateCosineSimilarity(vec1, vec2)`: `0` if either argument is
null/undefined (`none`), `0` if `Array.isArray` disagrees on the two
arguments, otherwise the dense or sparse computation. -/
noncomputable def calculateCosineSimilarity (vec1 vec2 : Option Vec) : ℝ :=
  match vec1, vec2 with
  | none, _ => 0
  | _, none => 0
  | some (Vec.dense a), some (Vec.dense b) => calculateArrayCosineSimilarity a b
  | some (Vec.sparse a), some (Vec.sparse b) => calculateObjectCosineSimilarity a b
  | _, _ => 0

/-- The session-state object handed to `addConversation` /
`buildOptimizedMessages` (`variables` / `currentVariables`), restricted to the
fields the source reads; `none` models an absent (`undefined`) field. -/
structure Variables where
  location : Option String := none
  realm : Option String := none
  hp : Option Int := none
  mp : Option Int := none
  items : Option (List String) := none
  relationships : Option (List String) := none
deriving DecidableEq

/-- `extractSummary(userMessage, aiResponse, variables)`: player action
(truncated at 50 characters), top-5 keywords of the AI reply, and the
location field when it is a non-empty string, joined by `" | "`. -/
def extractSummary (userMessage aiResponse : String) (vars : Variables) : String :=
  let playerPart :=
    if userMessage.length < 50 then "玩家：" ++ userMessage
    else "玩家：" ++ String.mk (userMessage.toList.take 50) ++ "..."
  let keywords := extractKeywords aiResponse
  let keywordParts :=
    if keywords.length > 0 then
      ["关键词：" ++ String.intercalate ("、") ((keywords.take 5).map Prod.fst)]
    else []
  let locationParts :=
    match vars.location with
    | some l => if l.length > 0 then ["地点：" ++ l] else []
    | none => []
  String.intercalate (" | ") ([playerPart] ++ keywordParts ++ locationParts)

/-- The reduced projection stored by `extractImportantVariables`. -/
structure ImportantVars where
  location : Option String
  realm : Option String
  hp : Option Int
  mp : Option Int
  hasNewItems : Bool
  hasNewRelationships : Bool
deriving DecidableEq

/-- `extractImportantVariables(variables)`. -/
def extractImportantVariables (v : Variables) : ImportantVars :=
  { location := v.location
    realm := v.realm
    hp := v.hp
    mp := v.mp
    hasNewItems := match v.items with
      | some l => decide (l.length > 0)
      | none => false
    hasNewRelationships := match v.relationships with
      | some l => decide (l.length > 0)
      | none => false }

/-- One entry of `this.conversationEmbeddings`, as pushed by
`addConversation`.  The source field `variables` is named `vars` here because
`variables` is reserved in Lean. -/
structure Conv where
  turnIndex : Int
  userMessage : String
  aiResponse : String
  vector : Vec
  vectorType : String
  summary : String
  timestamp : ℕ
  vars : ImportantVars
deriving DecidableEq

/-- The instance state of the `ContextVectorManager` class. -/
structure ManagerState where
  conversationEmbeddings : List Conv
  embeddingMethod : String
  maxRetrieveCount : ℕ
  minSimilarityThreshold : ℚ
deriving DecidableEq

/-- The constructor's initial state: empty store, `'keyword'` method,
`maxRetrieveCount = 5`, `minSimilarityThreshold = 0.3`. -/
def initialState : ManagerState :=
  { conversationEmbeddings := []
    embeddingMethod := "keyword"
    maxRetrieveCount := 5
    minSimilarityThreshold := 3 / 10 }

/-- Outcome of the awaited embedding-backend call inside `addConversation`:
it resolved to a vector value, resolved to `undefined`/`null`, or rejected
(reaching the surrounding `catch`). -/
inductive BackendResult where
  | ok (v : Vec)
  | missing
  | threw
deriving DecidableEq

/-- The vector validity check of `addConversation`
(`!vector || empty array || object with no keys`), falling back to
`createKeywordVector(combinedText)` when it fails. -/
def fallbackIfInvalid (v : Option Vec) (combinedText : String) : Vec :=
  match v with
  | none => Vec.sparse (createKeywordVector combinedText)
  | some (Vec.dense []) => Vec.sparse (createKeywordVector combinedText)
  | some (Vec.sparse []) => Vec.sparse (createKeywordVector combinedText)
  | some w => w

/-- The vector produced by the `try`/`catch` block of `addConversation` for a
given `embeddingMethod` and backend outcome.  The validity check runs on
every non-throwing path; when the awaited call throws, the `catch` block sets
the keyword vector directly (skipping the validity check). -/
def computeVector (method : String) (backend : BackendResult) (combinedText : String) : Vec :=
  if method = "keyword" then
    fallbackIfInvalid (some (Vec.sparse (createKeywordVector combinedText))) combinedText
  else if method = "api" ∨ method = "transformers" then
    match backend with
    | BackendResult.ok v => fallbackIfInvalid (some v) combinedText
    | BackendResult.missing => fallbackIfInvalid none combinedText
    | BackendResult.threw => Vec.sparse (createKeywordVector combinedText)
  else
    fallbackIfInvalid (some (Vec.sparse (createKeywordVector combinedText))) combinedText

/-- `findIndex` on `turnIndex` followed by `splice(existingIndex, 1)`:
removes the first entry with the given `turnIndex`, the whole store when no
entry matches (`existingIndex === -1` skips the splice). -/
def removeFirstByTurn : List Conv → Int → List Conv
  | [], _ => []
  | c :: rest, t =>
    if c.turnIndex = t then rest else c :: removeFirstByTurn rest t

/-- The record pushed onto `this.conversationEmbeddings` by
`addConversation` (`now` stands for `Date.now()`). -/
def newConvEntry (userMessage aiResponse : String) (turnIndex : Int)
    (vars : Variables) (method : String) (backend : BackendResult) (now : ℕ) : Conv :=
  let combinedText := userMessage ++ "\n" ++ aiResponse
  let vector := computeVector method backend combinedText
  { turnIndex := turnIndex
    userMessage := userMessage
    aiResponse := aiResponse
    vector := vector
    vectorType := match vector with
      | Vec.dense _ => "dense"
      | Vec.sparse _ => "sparse"
    summary := extractSummary userMessage aiResponse vars
    timestamp := now
    vars := extractImportantVariables vars }

/-- `addConversation(userMessage, aiResponse, turnIndex, variables)` as a
state transformer: remove any prior entry with the same `turnIndex`, then
push the freshly vectorized entry. -/
def addConversation (st : ManagerState) (userMessage aiResponse : String)
    (turnIndex : Int) (vars : Variables) (backend : BackendResult) (now : ℕ) : ManagerState :=
  { st with conversationEmbeddings :=
      removeFirstByTurn st.conversationEmbeddings turnIndex ++
        [newConvEntry userMessage aiResponse turnIndex vars st.embeddingMethod backend now] }

/-- `clear()`: empties the store. -/
def clear (st : ManagerState) : ManagerState :=
  { st with conversationEmbeddings := [] }

/-- `setEmbeddingMethod(method)`: accepts only the three known method
names. -/
def setEmbeddingMethod (st : ManagerState) (method : String) : ManagerState :=
  if method = "keyword" ∨ method = "api" ∨ method = "transformers" then
    { st with embeddingMethod := method }
  else st

/-- A role-tagged chat message. -/
structure Message where
  role : String
  content : String
deriving DecidableEq

/-- One element of the `relevantChunks` list returned by
`retrieveRelevantContext`. -/
structure RetrievedChunk where
  turnIndex : Int
  userMessage : String
  aiResponse : String
  similarity : ℝ
  summary : String

/-- The return value of `retrieveRelevantContext`. -/
structure RetrievalResult where
  relevantChunks : List RetrievedChunk
  recentChunks : List Message

/-- One element of the intermediate `similarities` array of
`retrieveRelevantContext`. -/
structure SimEntry where
  index : ℕ
  turnIndex : Int
  similarity : ℝ
  conversation : Conv

/-- The stored-side vector used for scoring: a dense stored vector is
re-derived as a keyword vector from the turn's combined text, a sparse one is
used as-is. -/
def convRetrievalVector (conv : Conv) : List (String × ℚ) :=
  match conv.vector with
  | Vec.dense _ => createKeywordVector (conv.userMessage ++ "\n" ++ conv.aiResponse)
  | Vec.sparse s => s

/-- The `similarities` array of `retrieveRelevantContext`: one scored entry
per stored turn, `currentVector` being the query's keyword vector. -/
noncomputable def querySimilarities (st : ManagerState)
    (currentVector : List (String × ℚ)) : List SimEntry :=
  st.conversationEmbeddings.enum.map (fun p =>
    { index := p.1
      turnIndex := p.2.turnIndex
      similarity := calculateCosineSimilarity (some (Vec.sparse currentVector))
        (some (Vec.sparse (convRetrievalVector p.2)))
      conversation := p.2 })

/-- The `relevantConversations` array: scores `≥ minSimilarityThreshold`,
sorted by descending score (JS stable sort with comparator
`b.similarity - a.similarity`, modelled by the stable `insertionSort`),
first `maxRetrieveCount` kept. -/
noncomputable def relevantConversations (st : ManagerState)
    (currentVector : List (String × ℚ)) : List SimEntry :=
  (((querySimilarities st currentVector).filter
      (fun item => decide ((st.minSimilarityThreshold : ℝ) ≤ item.similarity))).insertionSort
    (fun a b => b.similarity ≤ a.similarity)).take st.maxRetrieveCount

/-- The `relevantChunks` formatting step of `retrieveRelevantContext`. -/
noncomputable def relevantChunksOf (st : ManagerState)
    (currentVector : List (String × ℚ)) : List RetrievedChunk :=
  (relevantConversations st currentVector).map (fun item =>
    { turnIndex := item.turnIndex
      userMessage := item.conversation.userMessage
      aiResponse := item.conversation.aiResponse
      similarity := item.similarity
      summary := item.conversation.summary : RetrievedChunk })

/-- `retrieveRelevantContext(currentInput, recentHistory)` as a state-passing
function: early-out on an empty store or an empty query vector
(`currentVector = createKeywordVector(currentInput)`), otherwise score,
filter, sort, truncate and format via the three steps above. -/
noncomputable def retrieveRelevantContext (st : ManagerState) (currentInput : String)
    (recentHistory : List Message) : ManagerState × RetrievalResult :=
  if st.conversationEmbeddings.length = 0 then
    (st, { relevantChunks := [], recentChunks := recentHistory })
  else if (createKeywordVector currentInput).length = 0 then
    (st, { relevantChunks := [], recentChunks := recentHistory })
  else
    (st, { relevantChunks := relevantChunksOf st (createKeywordVector currentInput)
           recentChunks := recentHistory })

/-- Rendering of `JSON.stringify(currentVariables, null, 2)` for the
modelled `Variables` shape: present fields, two-space indent, `undefined`
fields omitted. -/
def jsonStringifyVariables (v : Variables) : String :=
  let strField (name : String) (s : String) : String :=
    "  \"" ++ name ++ "\": \"" ++ s ++ "\""
  let numField (name : String) (n : Int) : String :=
    "  \"" ++ name ++ "\": " ++ toString n
  let listField (name : String) (l : List String) : String :=
    "  \"" ++ name ++ "\": [" ++
      String.intercalate (", ") (l.map (fun s => "\"" ++ s ++ "\"")) ++ "]"
  let fields : List String :=
    (match v.location with | some s => [strField ("location") s] | none => []) ++
    (match v.realm with | some s => [strField ("realm") s] | none => []) ++
    (match v.hp with | some n => [numField ("hp") n] | none => []) ++
    (match v.mp with | some n => [numField ("mp") n] | none => []) ++
    (match v.items with | some l => [listField ("items") l] | none => []) ++
    (match v.relationships with | some l => [listField ("relationships") l] | none => [])
  "\x7b\n" ++ String.intercalate (",\n") fields ++ "\n\x7d"

/-- The second system message of `buildOptimizedMessages` (current variable
state as a fenced JSON dump). -/
def varsMessage (v : Variables) : Message :=
  { role := "system"
    content := "当前角色变量状态：\n```json\n" ++ jsonStringifyVariables v ++ "\n```" }

/-- `(x).toFixed(1)`: the number rounded to one decimal digit. -/
noncomputable def toFixed1 (x : ℝ) : String :=
  let n : ℤ := ⌊x * 10 + 1 / 2⌋
  toString (n / 10) ++ "." ++ toString (n % 10)

/-- The text block appended for one retrieved memory inside the
`relevantContext` accumulator. -/
noncomputable def chunkMemoryText (i : ℕ) (c : RetrievedChunk) : String :=
  "记忆" ++ toString (i + 1) ++ "（第" ++ toString c.turnIndex ++ "轮对话，相似度" ++
    toFixed1 (c.similarity * 100) ++ "%）：\n" ++
    "- 玩家行动：" ++ c.userMessage ++ "\n" ++
    "- 剧情摘要：" ++ c.summary ++ "\n\n"

/-- The full retrieved-memory system-message text. -/
noncomputable def relevantContextText (chunks : List RetrievedChunk) : String :=
  "【相关历史回忆】以下是与当前情境相关的过往记忆：\n\n" ++
    String.join (chunks.enum.map (fun p => chunkMemoryText p.1 p.2))

/-- The (possibly empty) retrieved-memory message block of
`buildOptimizedMessages`. -/
noncomputable def memoryMessages (chunks : List RetrievedChunk) : List Message :=
  if chunks.length > 0 then
    [{ role := "system", content := relevantContextText chunks }]
  else []

/-- The recent-window block of `buildOptimizedMessages`:
`conversationHistory.slice(-historyDepth * 2)` is
`drop (length - historyDepth * 2)` (a negative JS slice start clamps at 0,
matching truncated `ℕ` subtraction), guarded by a non-empty history and
`historyDepth > 0`. -/
def recentWindow (historyDepth : ℕ) (conversationHistory : List Message) : List Message :=
  if conversationHistory.length > 0 ∧ historyDepth > 0 then
    conversationHistory.drop (conversationHistory.length - historyDepth * 2)
  else []

/-- `buildOptimizedMessages(systemPrompt, currentVariables, currentInput,
historyDepth, fullConversationHistory)` as a state-passing function.
`globalHistory` models the ambient `window.gameState?.conversationHistory`
read as the conversation history whenever `fullConversationHistory` is
empty. -/
noncomputable def buildOptimizedMessages (st : ManagerState) (systemPrompt : String)
    (currentVariables : Variables) (currentInput : String) (historyDepth : ℕ)
    (fullConversationHistory globalHistory : List Message) : ManagerState × List Message :=
  ((retrieveRelevantContext st currentInput []).1,
    [{ role := "system", content := systemPrompt }, varsMessage currentVariables] ++
      memoryMessages (retrieveRelevantContext st currentInput []).2.relevantChunks ++
      recentWindow historyDepth
        (if fullConversationHistory.length > 0 then fullConversationHistory
         else globalHistory) ++
      [{ role := "user", content := currentInput }])

/-- All entries of a vector are non-negative (the situation for every vector
built from term frequencies). -/
def Vec.nonnegEntries : Vec → Bool
  | Vec.sparse l => l.all (fun p => decide (0 ≤ p.2))
  | Vec.dense l => l.all (fun x => decide (0 ≤ x))

/-- A concrete one-entry store used by witnesses: turn 1 has been indexed
under the default (keyword) method. -/
def c3Store : ManagerState :=
  addConversation initialState "森林 探索" "古庙 森林" 1 {} BackendResult.threw 3

/-- A concrete 10-message conversation history used by witnesses. -/
def sampleHistory : List Message :=
  [{ role := "user", content := "u1" }, { role := "assistant", content := "a1" },
   { role := "user", content := "u2" }, { role := "assistant", content := "a2" },
   { role := "user", content := "u3" }, { role := "assistant", content := "a3" },
   { role := "user", content := "u4" }, { role := "assistant", content := "a4" },
   { role := "user", content := "u5" }, { role := "assistant", content := "a5" }]

end ContextVectorManager

/-! ## Supporting lemmas and the claim theorems -/

namespace ContextVectorManager

/-- Dropping a prefix never lengthens a list (used for the fuel bound of
`tokenizeFuel`). -/
theorem length_dropWhile_le (p : Char → Bool) (l : List Char) :
    (l.dropWhile p).length ≤ l.length := by
  induction l with
  | nil => simp [List.dropWhile]
  | cons c cs ih =>
    by_cases h : p c
    · simp only [List.dropWhile, h]
      exact Nat.le_succ_of_le ih
    · simp only [List.dropWhile, h]
      simp

/-- Any two fuel amounts at least the length of the input make `tokenizeFuel`
agree: the fuel `l.length` supplied by `tokenize` is always sufficient. -/
theorem tokenizeFuel_congr :
    ∀ (f g : ℕ) (l : List Char), l.length ≤ f → l.length ≤ g →
      tokenizeFuel f l = tokenizeFuel g l := by
  intro f
  induction f with
  | zero =>
    intro g l hf _
    have : l = [] := List.eq_nil_of_length_eq_zero (Nat.le_zero.mp hf)
    subst this
    cases g <;> rfl
  | succ f ih =>
    intro g l hf hg
    match l with
    | [] => cases g <;> rfl
    | c :: cs =>
      match g, hg with
      | g + 1, hg =>
        simp only [List.length_cons, Nat.add_le_add_iff_right] at hf hg
        simp only [tokenizeFuel]
        by_cases h1 : isCJKChar c = true
        · rw [if_pos h1, if_pos h1,
            ih g _ (le_trans (length_dropWhile_le _ _) hf)
              (le_trans (length_dropWhile_le _ _) hg)]
        · by_cases h2 : isLatinChar c = true
          · rw [if_neg h1, if_neg h1, if_pos h2, if_pos h2,
              ih g _ (le_trans (length_dropWhile_le _ _) hf)
                (le_trans (length_dropWhile_le _ _) hg)]
          · rw [if_neg h1, if_neg h1, if_neg h2, if_neg h2]
            exact ih g cs hf hg

/-- C4: for every pair of inputs to `calculateCosineSimilarity` where either
input is absent (null/undefined) or the two inputs use different
representations (one dense array, one sparse object), the result is exactly
`0`; the embedding is a total function, so no error is raised. -/
theorem C4_absent_or_mixed_inputs_yield_zero (vec1 vec2 : Option Vec)
    (h : vec1 = none ∨ vec2 = none ∨
      (∃ a b, vec1 = some (Vec.sparse a) ∧ vec2 = some (Vec.dense b)) ∨
      (∃ a b, vec1 = some (Vec.dense a) ∧ vec2 = some (Vec.sparse b))) :
    calculateCosineSimilarity vec1 vec2 = 0 := by
  rcases h with h | h | ⟨a, b, h1, h2⟩ | ⟨a, b, h1, h2⟩
  · subst h
    cases vec2 with
    | none => rfl
    | some v => cases v <;> rfl
  · subst h
    cases vec1 with
    | none => rfl
    | some v => cases v <;> rfl
  · subst h1
    subst h2
    rfl
  · subst h1
    subst h2
    rfl

/-- Witness for C4 at a concrete mixed (sparse, dense) input pair. -/
theorem C4_witness :
    calculateCosineSimilarity (some (Vec.sparse [("ab", 1)]))
      (some (Vec.dense [1, 2])) = 0 :=
  C4_absent_or_mixed_inputs_yield_zero _ _ (Or.inr (Or.inr (Or.inl ⟨_, _, rfl, rfl⟩)))

/-- The retrieval method never changes the manager state (its first
component is always the input state). -/
theorem retrieveRelevantContext_fst (st : ManagerState) (currentInput : String)
    (recentHistory : List Message) :
    (retrieveRelevantContext st currentInput recentHistory).1 = st := by
  unfold retrieveRelevantContext
  split
  · rfl
  · split <;> rfl

/-- C10: the memory store (indeed the entire manager state) is not mutated by
`retrieveRelevantContext` or `buildOptimizedMessages`: both return the state
exactly as given.  (Only `addConversation`, `clear` and the persistence load
update `conversationEmbeddings`.) -/
theorem C10_retrieval_and_build_do_not_mutate_store (st : ManagerState)
    (currentInput : String) (recentHistory : List Message) (systemPrompt : String)
    (currentVariables : Variables) (historyDepth : ℕ)
    (fullHistory globalHistory : List Message) :
    (retrieveRelevantContext st currentInput recentHistory).1 = st ∧
    (buildOptimizedMessages st systemPrompt currentVariables currentInput
        historyDepth fullHistory globalHistory).1 = st := by
  refine ⟨retrieveRelevantContext_fst st currentInput recentHistory, ?_⟩
  show (retrieveRelevantContext st currentInput []).1 = st
  exact retrieveRelevantContext_fst st currentInput []

/-- The two key-union iteration orders are permutations of each other. -/
theorem allKeys_perm (v1 v2 : List (String × ℚ)) :
    (allKeys v2 v1).Perm (allKeys v1 v2) :=
  List.Perm.dedup List.perm_append_comm

/-- The sparse dot product is symmetric. -/
theorem objDot_comm (v1 v2 : List (String × ℚ)) : objDot v2 v1 = objDot v1 v2 := by
  unfold objDot
  rw [((allKeys_perm v1 v2).map _).sum_eq]
  have : (fun k => lookupWeight v2 k * lookupWeight v1 k) =
      (fun k => lookupWeight v1 k * lookupWeight v2 k) :=
    funext fun k => mul_comm _ _
  rw [this]

/-- Swapping the arguments swaps the two accumulated norms (first form). -/
theorem objNorm1_swap (v1 v2 : List (String × ℚ)) :
    objNorm1 v2 v1 = objNorm2 v1 v2 := by
  unfold objNorm1 objNorm2
  rw [((allKeys_perm v1 v2).map _).sum_eq]

/-- Swapping the arguments swaps the two accumulated norms (second form). -/
theorem objNorm2_swap (v1 v2 : List (String × ℚ)) :
    objNorm2 v2 v1 = objNorm1 v1 v2 := by
  unfold objNorm1 objNorm2
  rw [((allKeys_perm v1 v2).map _).sum_eq]

/-- Exchanging the two norm arguments leaves the guarded cosine quotient
unchanged. -/
theorem cosineFromSums_swap (d n1 n2 : ℚ) :
    cosineFromSums d n2 n1 = cosineFromSums d n1 n2 := by
  unfold cosineFromSums
  by_cases h : n1 = 0 ∨ n2 = 0
  · rw [if_pos (Or.symm h), if_pos h]
  · rw [if_neg (fun hc => h (Or.symm hc)), if_neg h, mul_comm]

/-- Sparse-sparse cosine similarity is symmetric. -/
theorem calculateObjectCosineSimilarity_comm (v1 v2 : List (String × ℚ)) :
    calculateObjectCosineSimilarity v1 v2 = calculateObjectCosineSimilarity v2 v1 := by
  unfold calculateObjectCosineSimilarity
  rw [objDot_comm v1 v2, objNorm1_swap v1 v2, objNorm2_swap v1 v2]
  exact (cosineFromSums_swap _ _ _).symm

/-- The common prefix length is symmetric. -/
theorem arrLen_comm (v1 v2 : List ℚ) : arrLen v2 v1 = arrLen v1 v2 :=
  min_comm _ _

/-- The dense dot product is symmetric. -/
theorem arrDot_comm (v1 v2 : List ℚ) : arrDot v2 v1 = arrDot v1 v2 := by
  unfold arrDot
  rw [arrLen_comm v1 v2]
  exact Finset.sum_congr rfl (fun i _ => mul_comm _ _)

/-- Swapping the arguments swaps the dense norms (first form). -/
theorem arrNorm1_swap (v1 v2 : List ℚ) : arrNorm1 v2 v1 = arrNorm2 v1 v2 := by
  unfold arrNorm1 arrNorm2
  rw [arrLen_comm v1 v2]

/-- Swapping the arguments swaps the dense norms (second form). -/
theorem arrNorm2_swap (v1 v2 : List ℚ) : arrNorm2 v2 v1 = arrNorm1 v1 v2 := by
  unfold arrNorm1 arrNorm2
  rw [arrLen_comm v1 v2]

/-- Dense-dense cosine similarity is symmetric. -/
theorem calculateArrayCosineSimilarity_comm (v1 v2 : List ℚ) :
    calculateArrayCosineSimilarity v1 v2 = calculateArrayCosineSimilarity v2 v1 := by
  unfold calculateArrayCosineSimilarity
  rw [arrDot_comm v1 v2, arrNorm1_swap v1 v2, arrNorm2_swap v1 v2]
  exact (cosineFromSums_swap _ _ _).symm

/-- C8: cosine similarity is symmetric for every representation-compatible
pair (both sparse objects or both dense arrays). -/
theorem C8_cosine_similarity_symmetric (a b : Vec)
    (h : (∃ x y, a = Vec.sparse x ∧ b = Vec.sparse y) ∨
      (∃ x y, a = Vec.dense x ∧ b = Vec.dense y)) :
    calculateCosineSimilarity (some a) (some b) =
      calculateCosineSimilarity (some b) (some a) := by
  rcases h with ⟨x, y, h1, h2⟩ | ⟨x, y, h1, h2⟩ <;> subst h1 <;> subst h2
  · exact calculateObjectCosineSimilarity_comm x y
  · exact calculateArrayCosineSimilarity_comm x y

/-- Witness for C8 at a concrete sparse-sparse pair. -/
theorem C8_witness :
    calculateCosineSimilarity (some (Vec.sparse [("ab", 2)]))
        (some (Vec.sparse [("cd", 1)])) =
      calculateCosineSimilarity (some (Vec.sparse [("cd", 1)]))
        (some (Vec.sparse [("ab", 2)])) :=
  C8_cosine_similarity_symmetric _ _ (Or.inl ⟨_, _, rfl, rfl⟩)

/-- `findIndex` + `splice` removal yields a sublist of the store. -/
theorem removeFirstByTurn_sublist (l : List Conv) (t : Int) :
    (removeFirstByTurn l t).Sublist l := by
  induction l with
  | nil => simp [removeFirstByTurn]
  | cons c rest ih =>
    simp only [removeFirstByTurn]
    split
    · exact List.sublist_cons_self c rest
    · exact ih.cons₂ c

/-- Under unique turn indices, the removed store no longer contains the
removed `turnIndex`. -/
theorem not_mem_map_removeFirstByTurn (l : List Conv) (t : Int)
    (h : (l.map Conv.turnIndex).Nodup) :
    t ∉ (removeFirstByTurn l t).map Conv.turnIndex := by
  induction l with
  | nil => simp [removeFirstByTurn]
  | cons c rest ih =>
    simp only [List.map_cons, List.nodup_cons] at h
    obtain ⟨hnotin, hnodup⟩ := h
    simp only [removeFirstByTurn]
    split
    · next heq => exact heq ▸ hnotin
    · next hne =>
      simp only [List.map_cons, List.mem_cons, not_or]
      exact ⟨fun ht => hne ht.symm, ih hnodup⟩

/-- When the `turnIndex` is present, removal drops exactly one entry. -/
theorem length_removeFirstByTurn_of_mem (l : List Conv) (t : Int)
    (h : t ∈ l.map Conv.turnIndex) :
    (removeFirstByTurn l t).length + 1 = l.length := by
  induction l with
  | nil => simp at h
  | cons c rest ih =>
    simp only [removeFirstByTurn]
    split
    · simp
    · next hne =>
      simp only [List.map_cons, List.mem_cons] at h
      rcases h with h | h
      · exact absurd h.symm hne
      · have := ih h
        simp only [List.length_cons]
        omega

/-- The upserted entry carries the requested `turnIndex`. -/
theorem newConvEntry_turnIndex (u a : String) (t : Int) (vars : Variables)
    (method : String) (backend : BackendResult) (now : ℕ) :
    (newConvEntry u a t vars method backend now).turnIndex = t := rfl

/-- C3: `turnIndex` values stay unique across `addConversation`; upserting an
existing index removes the prior entry and inserts the new one (replace, not
merge), leaving the store size unchanged, and the only entry carrying the
upserted `turnIndex` afterwards is the freshly built one. -/
theorem C3_turnIndex_unique_and_upsert_replaces (st : ManagerState)
    (u a : String) (t : Int) (vars : Variables) (backend : BackendResult) (now : ℕ)
    (h : (st.conversationEmbeddings.map Conv.turnIndex).Nodup) :
    ((addConversation st u a t vars backend now).conversationEmbeddings.map
      Conv.turnIndex).Nodup ∧
    (t ∈ st.conversationEmbeddings.map Conv.turnIndex →
      (addConversation st u a t vars backend now).conversationEmbeddings.length =
        st.conversationEmbeddings.length) ∧
    (∀ c ∈ (addConversation st u a t vars backend now).conversationEmbeddings,
      c.turnIndex = t → c = newConvEntry u a t vars st.embeddingMethod backend now) := by
  have hrem := not_mem_map_removeFirstByTurn st.conversationEmbeddings t h
  have hsub := (removeFirstByTurn_sublist st.conversationEmbeddings t).map Conv.turnIndex
  have hnodup := List.Nodup.sublist hsub h
  refine ⟨?_, ?_, ?_⟩
  · show ((removeFirstByTurn st.conversationEmbeddings t ++
      [newConvEntry u a t vars st.embeddingMethod backend now]).map Conv.turnIndex).Nodup
    rw [List.map_append, List.nodup_append]
    refine ⟨hnodup, List.nodup_singleton _, ?_⟩
    intro x hx hx2
    simp only [List.map_cons, List.map_nil, List.mem_singleton,
      newConvEntry_turnIndex] at hx2
    exact hrem (hx2 ▸ hx)
  · intro hmem
    show (removeFirstByTurn st.conversationEmbeddings t ++
      [newConvEntry u a t vars st.embeddingMethod backend now]).length =
        st.conversationEmbeddings.length
    rw [List.length_append]
    simpa using length_removeFirstByTurn_of_mem st.conversationEmbeddings t hmem
  · intro c hc hct
    rcases List.mem_append.mp hc with hcl | hcr
    · exfalso
      have := List.mem_map_of_mem Conv.turnIndex hcl
      rw [hct] at this
      exact hrem this
    · simpa using hcr

/-- `bump` keeps every stored frequency positive. -/
theorem bump_pos (m : List (String × ℕ)) (w : String) (h : ∀ p ∈ m, 0 < p.2) :
    ∀ p ∈ bump m w, 0 < p.2 := by
  induction m with
  | nil =>
    intro p hp
    simp only [bump, List.mem_singleton] at hp
    subst hp
    exact Nat.one_pos
  | cons q rest ih =>
    obtain ⟨k, v⟩ := q
    intro p hp
    simp only [bump] at hp
    split at hp
    · rcases List.mem_cons.mp hp with h1 | h1
      · subst h1
        exact Nat.succ_pos v
      · exact h p (List.mem_cons_of_mem _ h1)
    · rcases List.mem_cons.mp hp with h1 | h1
      · subst h1
        exact h (k, v) (List.mem_cons_self _ _)
      · exact ih (fun p hp => h p (List.mem_cons_of_mem _ hp)) p h1

/-- Every frequency in the word-frequency table is positive. -/
theorem wordFreq_pos (ws : List String) : ∀ p ∈ wordFreq ws, 0 < p.2 := by
  have key : ∀ (ws : List String) (m : List (String × ℕ)), (∀ p ∈ m, 0 < p.2) →
      ∀ p ∈ ws.foldl (fun m w => if w.length > 1 then bump m w else m) m, 0 < p.2 := by
    intro ws
    induction ws with
    | nil =>
      intro m hm
      simpa using hm
    | cons w rest ih =>
      intro m hm
      rw [List.foldl_cons]
      apply ih
      by_cases hw : w.length > 1
      · rw [if_pos hw]
        exact bump_pos m w hm
      · rw [if_neg hw]
        exact hm
  exact key ws [] (by simp)

/-- `bump` never returns an empty table. -/
theorem bump_ne_nil (m : List (String × ℕ)) (w : String) : bump m w ≠ [] := by
  cases m with
  | nil => simp [bump]
  | cons q rest =>
    obtain ⟨k, v⟩ := q
    simp only [bump]
    split <;> simp

/-- The frequency-accumulating fold never empties a non-empty table. -/
theorem wordFreq_foldl_ne_nil (ws : List String) :
    ∀ (m : List (String × ℕ)), m ≠ [] →
      ws.foldl (fun m w => if w.length > 1 then bump m w else m) m ≠ [] := by
  induction ws with
  | nil =>
    intro m hm
    simpa using hm
  | cons w rest ih =>
    intro m hm
    rw [List.foldl_cons]
    apply ih
    by_cases hw : w.length > 1
    · rw [if_pos hw]
      exact bump_ne_nil m w
    · rw [if_neg hw]
      exact hm

/-- A word of length at least 2 guarantees a non-empty frequency table. -/
theorem wordFreq_ne_nil_of_mem (ws : List String) (w : String) (hw : w ∈ ws)
    (hl : w.length > 1) : wordFreq ws ≠ [] := by
  unfold wordFreq
  have key : ∀ (ws : List String) (m : List (String × ℕ)), w ∈ ws →
      ws.foldl (fun m w => if w.length > 1 then bump m w else m) m ≠ [] := by
    intro ws
    induction ws with
    | nil =>
      intro m hmem
      simp at hmem
    | cons w0 rest ih =>
      intro m hmem
      rw [List.foldl_cons]
      rcases List.mem_cons.mp hmem with h | h
      · subst h
        rw [if_pos hl]
        exact wordFreq_foldl_ne_nil rest _ (bump_ne_nil m w)
      · exact ih _ h
  exact key ws [] hw

/-- The keyword vector is empty exactly when no keyword was extracted. -/
theorem createKeywordVector_eq_nil_iff (text : String) :
    createKeywordVector text = [] ↔ extractKeywords text = [] := by
  unfold createKeywordVector
  constructor
  · intro h
    exact List.map_eq_nil_iff.mp h
  · intro h
    rw [h]
    rfl

/-- A sparse vector over a non-empty keyword list is a usable (non-empty)
vector. -/
theorem sparse_keyword_vector_usable (text : String)
    (h : createKeywordVector text ≠ []) :
    Vec.sparse (createKeywordVector text) ≠ Vec.sparse [] ∧
      Vec.sparse (createKeywordVector text) ≠ Vec.dense [] := by
  refine ⟨fun he => ?_, by simp⟩
  simp only [Vec.sparse.injEq] at he
  exact h he

/-- When the combined text has at least one keyword, the validity-checked
vector is never empty. -/
theorem fallbackIfInvalid_usable (v : Option Vec) (text : String)
    (h : createKeywordVector text ≠ []) :
    fallbackIfInvalid v text ≠ Vec.sparse [] ∧
      fallbackIfInvalid v text ≠ Vec.dense [] := by
  match v with
  | none => exact sparse_keyword_vector_usable text h
  | some (Vec.sparse []) => exact sparse_keyword_vector_usable text h
  | some (Vec.dense []) => exact sparse_keyword_vector_usable text h
  | some (Vec.sparse (p :: l)) => exact ⟨by simp [fallbackIfInvalid], by simp [fallbackIfInvalid]⟩
  | some (Vec.dense (x :: l)) => exact ⟨by simp [fallbackIfInvalid], by simp [fallbackIfInvalid]⟩

/-- When the combined text has at least one keyword, every method and backend
outcome produces a usable vector. -/
theorem computeVector_usable (method : String) (backend : BackendResult)
    (text : String) (h : extractKeywords text ≠ []) :
    computeVector method backend text ≠ Vec.sparse [] ∧
      computeVector method backend text ≠ Vec.dense [] := by
  have hkw : createKeywordVector text ≠ [] :=
    fun he => h ((createKeywordVector_eq_nil_iff text).mp he)
  unfold computeVector
  split
  · exact fallbackIfInvalid_usable _ text hkw
  · split
    · match backend with
      | BackendResult.ok v => exact fallbackIfInvalid_usable _ text hkw
      | BackendResult.missing => exact fallbackIfInvalid_usable none text hkw
      | BackendResult.threw => exact sparse_keyword_vector_usable text hkw
    · exact fallbackIfInvalid_usable _ text hkw

/-- On a backend failure (the awaited call resolves to nothing or throws)
under the `api` or `transformers` method, the produced vector is exactly the
lexical keyword vector. -/
theorem computeVector_fallback_on_failure (method : String)
    (backend : BackendResult) (text : String)
    (hm : method = "api" ∨ method = "transformers")
    (hb : backend = BackendResult.missing ∨ backend = BackendResult.threw) :
    computeVector method backend text = Vec.sparse (createKeywordVector text) := by
  have hne : ¬(method = "keyword") := by
    rcases hm with h | h <;> subst h <;> decide
  unfold computeVector
  rw [if_neg hne, if_pos hm]
  rcases hb with h | h <;> subst h <;> rfl

/-- C1 counterexample: the claim as stated fails.  For the non-empty inputs
`userMessage = "a"`, `aiResponse = "b"` (no term of length ≥ 2, so the
lexical extractor finds nothing), `addConversation` under the default
keyword method stores the turn with an empty sparse vector — the pipeline
failed to produce a usable non-empty vector for a non-empty text input. -/
theorem C1_counterexample :
    (addConversation initialState "a" "b" 1 {} BackendResult.threw
        0).conversationEmbeddings.map Conv.vector = [Vec.sparse []] := by
  decide

/-- C1 (amended): for every input whose combined text contains at least one
extractable term (a CJK or Latin run of length ≥ 2), `addConversation` under
any `embeddingMethod` and any backend outcome stores a usable non-empty
vector; when the backend fails (resolves to nothing or throws) under the
`api` or `transformers` method, the stored vector is exactly the non-empty
sparse lexical keyword vector. -/
theorem C1_amended_nonempty_terms_yield_usable_vector (st : ManagerState)
    (u a : String) (t : Int) (vars : Variables) (backend : BackendResult) (now : ℕ)
    (h : extractKeywords (u ++ "\n" ++ a) ≠ []) :
    ∃ c, (addConversation st u a t vars backend now).conversationEmbeddings.getLast? =
        some c ∧
      c.vector ≠ Vec.sparse [] ∧ c.vector ≠ Vec.dense [] ∧
      ((st.embeddingMethod = "api" ∨ st.embeddingMethod = "transformers") →
        (backend = BackendResult.missing ∨ backend = BackendResult.threw) →
        c.vector = Vec.sparse (createKeywordVector (u ++ "\n" ++ a))) := by
  refine ⟨newConvEntry u a t vars st.embeddingMethod backend now, ?_, ?_, ?_, ?_⟩
  · exact List.getLast?_concat _
  · exact (computeVector_usable st.embeddingMethod backend (u ++ "\n" ++ a) h).1
  · exact (computeVector_usable st.embeddingMethod backend (u ++ "\n" ++ a) h).2
  · intro hm hb
    exact computeVector_fallback_on_failure st.embeddingMethod backend
      (u ++ "\n" ++ a) hm hb

/-- Witness for C1 (amended): a remote-method store whose backend throws
still stores the non-empty lexical vector for a two-term text. -/
theorem C1_witness :
    ∃ c, (addConversation { initialState with embeddingMethod := "api" }
          "hello world" "hello again" 1 {} BackendResult.threw
          0).conversationEmbeddings.getLast? = some c ∧
      c.vector ≠ Vec.sparse [] ∧ c.vector ≠ Vec.dense [] ∧
      ((({ initialState with embeddingMethod := "api" } :
            ManagerState).embeddingMethod = "api" ∨
        ({ initialState with embeddingMethod := "api" } :
            ManagerState).embeddingMethod = "transformers") →
        (BackendResult.threw = BackendResult.missing ∨
          BackendResult.threw = BackendResult.threw) →
        c.vector = Vec.sparse (createKeywordVector ("hello world" ++ "\n" ++ "hello again"))) :=
  C1_amended_nonempty_terms_yield_usable_vector _ "hello world" "hello again" 1 {}
    BackendResult.threw 0 (by decide)

/-- C9: `createKeywordVector` always returns a sparse mapping whose values
are positive integers with at most 20 keys, and it is empty only when the
text has no term of length ≥ 2. -/
theorem C9_keyword_vector_shape (text : String) :
    (∀ p ∈ createKeywordVector text, ∃ n : ℕ, p.2 = (n : ℚ) ∧ 0 < n) ∧
    (createKeywordVector text).length ≤ 20 ∧
    (createKeywordVector text = [] → ∀ w ∈ tokenize text.toList, w.length ≤ 1) := by
  refine ⟨?_, ?_, ?_⟩
  · intro p hp
    unfold createKeywordVector at hp
    obtain ⟨q, hq, rfl⟩ := List.mem_map.mp hp
    refine ⟨q.2, rfl, ?_⟩
    unfold extractKeywords at hq
    have h1 := List.mem_of_mem_take hq
    have h2 := (List.perm_insertionSort _ _).mem_iff.mp h1
    exact wordFreq_pos _ q h2
  · unfold createKeywordVector extractKeywords
    rw [List.length_map]
    exact List.length_take_le 20 _
  · intro hnil w hw
    by_contra hlen
    have hgt : w.length > 1 := by omega
    apply wordFreq_ne_nil_of_mem (tokenize text.toList) w hw hgt
    have hek : extractKeywords text = [] := (createKeywordVector_eq_nil_iff text).mp hnil
    unfold extractKeywords at hek
    have h20 : ((wordFreq (tokenize text.toList)).insertionSort
        (fun a b => b.2 ≤ a.2)) = [] := by
      rcases List.take_eq_nil_iff.mp hek with h | h
      · exact absurd h (by norm_num)
      · exact h
    have hperm := List.perm_insertionSort (fun a b : String × ℕ => b.2 ≤ a.2)
      (wordFreq (tokenize text.toList))
    rw [h20] at hperm
    exact List.eq_nil_of_length_eq_zero (hperm.symm.length_eq)

/-- With `historyDepth = 2` a 10-message history windows to its last 4
messages. -/
theorem recentWindow_two_of_length_ten (hist : List Message)
    (h : hist.length = 10) : recentWindow 2 hist = hist.drop 6 := by
  unfold recentWindow
  rw [if_pos ⟨by omega, by omega⟩, h]

/-- C6: with `recentWindowSize = 2` and a 10-message full history, the built
message list is exactly the two leading system messages, then any
retrieved-memory system message, then the last 4 history messages in their
original order, then the final user message carrying the query text. -/
theorem C6_depth_two_includes_last_four_history_messages (st : ManagerState)
    (systemPrompt : String) (vars : Variables) (currentInput : String)
    (hist globalHistory : List Message) (h : hist.length = 10) :
    (buildOptimizedMessages st systemPrompt vars currentInput 2 hist
        globalHistory).2 =
      [{ role := "system", content := systemPrompt }, varsMessage vars] ++
        memoryMessages (retrieveRelevantContext st currentInput []).2.relevantChunks ++
        hist.drop 6 ++ [{ role := "user", content := currentInput }] ∧
    (hist.drop 6).length = 4 ∧
    hist.take 6 ++ hist.drop 6 = hist := by
  refine ⟨?_, by simp [h], List.take_append_drop 6 hist⟩
  unfold buildOptimizedMessages
  dsimp only
  rw [if_pos (show hist.length > 0 by omega), recentWindow_two_of_length_ten hist h]

/-- Witness for C6 at a concrete 10-message history over the empty store. -/
theorem C6_witness :
    (buildOptimizedMessages initialState "p" {} "q" 2 sampleHistory []).2 =
      [{ role := "system", content := "p" }, varsMessage {}] ++
        sampleHistory.drop 6 ++ [{ role := "user", content := "q" }] := by
  rw [(C6_depth_two_includes_last_four_history_messages initialState "p" {} "q"
      sampleHistory [] (by decide)).1]
  rfl

/-- C7 counterexample: the claim as stated fails.  With an empty
`fullConversationHistory` but a non-empty ambient global history
(`window.gameState.conversationHistory`), `buildOptimizedMessages` falls back
to the global history and does include its trailing messages — the
recent-turn window is not omitted. -/
theorem C7_counterexample :
    (buildOptimizedMessages initialState "p" {} "q" 2 []
        [{ role := "user", content := "hi" },
          { role := "assistant", content := "yo" }]).2 =
      [{ role := "system", content := "p" }, varsMessage {},
        { role := "user", content := "hi" }, { role := "assistant", content := "yo" },
        { role := "user", content := "q" }] := by
  rfl

/-- C7 (amended): the recent-turn window is omitted entirely whenever
`recentWindowSize` is 0; when `fullConversationHistory` is empty the code
substitutes the ambient global history, so the window is omitted in that case
only when the global history is empty too. -/
theorem C7_amended_window_omitted (st : ManagerState) (systemPrompt : String)
    (vars : Variables) (currentInput : String) (historyDepth : ℕ)
    (hist globalHistory : List Message)
    (h : historyDepth = 0 ∨ (hist = [] ∧ globalHistory = [])) :
    (buildOptimizedMessages st systemPrompt vars currentInput historyDepth hist
        globalHistory).2 =
      [{ role := "system", content := systemPrompt }, varsMessage vars] ++
        memoryMessages (retrieveRelevantContext st currentInput []).2.relevantChunks ++
        [{ role := "user", content := currentInput }] := by
  unfold buildOptimizedMessages
  dsimp only
  have hwin : recentWindow historyDepth
      (if hist.length > 0 then hist else globalHistory) = [] := by
    rcases h with h | ⟨h1, h2⟩
    · subst h
      unfold recentWindow
      rw [if_neg]
      simp
    · subst h1
      subst h2
      simp [recentWindow]
  rw [hwin]
  simp

/-- Witness for C7 (amended) at `recentWindowSize = 0` with a non-empty full
history over the empty store. -/
theorem C7_witness :
    (buildOptimizedMessages initialState "p" {} "q" 0 sampleHistory []).2 =
      [{ role := "system", content := "p" }, varsMessage {},
        { role := "user", content := "q" }] := by
  rw [C7_amended_window_omitted initialState "p" {} "q" 0 sampleHistory []
    (Or.inl rfl)]
  rfl

/-- A lookup in a vector with non-negative weights is non-negative. -/
theorem lookupWeight_nonneg (v : List (String × ℚ)) (h : ∀ p ∈ v, 0 ≤ p.2)
    (k : String) : 0 ≤ lookupWeight v k := by
  unfold lookupWeight
  split
  · next p hp => exact h p (List.mem_of_find?_eq_some hp)
  · exact le_refl (0 : ℚ)

/-- The sparse dot product of two non-negative vectors is non-negative. -/
theorem objDot_nonneg (v1 v2 : List (String × ℚ)) (h1 : ∀ p ∈ v1, 0 ≤ p.2)
    (h2 : ∀ p ∈ v2, 0 ≤ p.2) : 0 ≤ objDot v1 v2 := by
  unfold objDot
  apply List.sum_nonneg
  intro x hx
  obtain ⟨k, _, rfl⟩ := List.mem_map.mp hx
  exact mul_nonneg (lookupWeight_nonneg v1 h1 k) (lookupWeight_nonneg v2 h2 k)

/-- Both accumulated sparse norms are sums of squares, hence non-negative. -/
theorem objNorm1_nonneg (v1 v2 : List (String × ℚ)) : 0 ≤ objNorm1 v1 v2 := by
  unfold objNorm1
  apply List.sum_nonneg
  intro x hx
  obtain ⟨k, _, rfl⟩ := List.mem_map.mp hx
  exact mul_self_nonneg _

/-- The second accumulated sparse norm is non-negative. -/
theorem objNorm2_nonneg (v1 v2 : List (String × ℚ)) : 0 ≤ objNorm2 v1 v2 := by
  unfold objNorm2
  apply List.sum_nonneg
  intro x hx
  obtain ⟨k, _, rfl⟩ := List.mem_map.mp hx
  exact mul_self_nonneg _

/-- Cauchy-Schwarz for the sparse accumulation. -/
theorem objDot_sq_le (v1 v2 : List (String × ℚ)) :
    objDot v1 v2 ^ 2 ≤ objNorm1 v1 v2 * objNorm2 v1 v2 := by
  unfold objDot objNorm1 objNorm2
  have hnd : (allKeys v1 v2).Nodup := List.nodup_dedup _
  rw [← List.sum_toFinset _ hnd, ← List.sum_toFinset _ hnd, ← List.sum_toFinset _ hnd]
  have h := Finset.sum_mul_sq_le_sq_mul_sq (allKeys v1 v2).toFinset
    (fun k => lookupWeight v1 k) (fun k => lookupWeight v2 k)
  simpa only [pow_two] using h

/-- A dense entry read from a non-negative array is non-negative (missing
indices read as `0`). -/
theorem denseEntry_nonneg (v : List ℚ) (h : ∀ x ∈ v, 0 ≤ x) (i : ℕ) :
    0 ≤ denseEntry v i := by
  unfold denseEntry
  induction v generalizing i with
  | nil => simp
  | cons x xs ih =>
    cases i with
    | zero =>
      rw [List.getD_cons_zero]
      exact h x (List.mem_cons_self _ _)
    | succ n =>
      rw [List.getD_cons_succ]
      exact ih (fun y hy => h y (List.mem_cons_of_mem _ hy)) n

/-- The dense dot product of two non-negative arrays is non-negative. -/
theorem arrDot_nonneg (v1 v2 : List ℚ) (h1 : ∀ x ∈ v1, 0 ≤ x)
    (h2 : ∀ x ∈ v2, 0 ≤ x) : 0 ≤ arrDot v1 v2 := by
  unfold arrDot
  exact Finset.sum_nonneg (fun i _ =>
    mul_nonneg (denseEntry_nonneg v1 h1 i) (denseEntry_nonneg v2 h2 i))

/-- The first accumulated dense norm is non-negative. -/
theorem arrNorm1_nonneg (v1 v2 : List ℚ) : 0 ≤ arrNorm1 v1 v2 := by
  unfold arrNorm1
  exact Finset.sum_nonneg (fun i _ => mul_self_nonneg _)

/-- The second accumulated dense norm is non-negative. -/
theorem arrNorm2_nonneg (v1 v2 : List ℚ) : 0 ≤ arrNorm2 v1 v2 := by
  unfold arrNorm2
  exact Finset.sum_nonneg (fun i _ => mul_self_nonneg _)

/-- Cauchy-Schwarz for the dense accumulation. -/
theorem arrDot_sq_le (v1 v2 : List ℚ) :
    arrDot v1 v2 ^ 2 ≤ arrNorm1 v1 v2 * arrNorm2 v1 v2 := by
  unfold arrDot arrNorm1 arrNorm2
  have h := Finset.sum_mul_sq_le_sq_mul_sq (Finset.range (arrLen v1 v2))
    (fun i => denseEntry v1 i) (fun i => denseEntry v2 i)
  simpa only [pow_two] using h

/-- The guarded cosine quotient lies in `[0, 1]` whenever the dot product is
non-negative and Cauchy-Schwarz relates it to the two norms. -/
theorem cosineFromSums_mem_Icc (d n1 n2 : ℚ) (hd : 0 ≤ d) (hn1 : 0 ≤ n1)
    (hn2 : 0 ≤ n2) (hcs : d ^ 2 ≤ n1 * n2) :
    cosineFromSums d n1 n2 ∈ Set.Icc (0 : ℝ) 1 := by
  unfold cosineFromSums
  split
  · exact Set.mem_Icc.mpr ⟨le_refl 0, zero_le_one⟩
  · next hne =>
    push_neg at hne
    obtain ⟨h1, h2⟩ := hne
    have hp1 : (0 : ℝ) < (n1 : ℝ) := by
      exact_mod_cast lt_of_le_of_ne hn1 (Ne.symm h1)
    have hp2 : (0 : ℝ) < (n2 : ℝ) := by
      exact_mod_cast lt_of_le_of_ne hn2 (Ne.symm h2)
    have hs1 : 0 < Real.sqrt (n1 : ℝ) := Real.sqrt_pos.mpr hp1
    have hs2 : 0 < Real.sqrt (n2 : ℝ) := Real.sqrt_pos.mpr hp2
    rw [Set.mem_Icc]
    constructor
    · exact div_nonneg (by exact_mod_cast hd) (mul_pos hs1 hs2).le
    · rw [div_le_one (mul_pos hs1 hs2), ← Real.sqrt_mul hp1.le]
      rw [Real.le_sqrt (by exact_mod_cast hd) (mul_nonneg hp1.le hp2.le)]
      exact_mod_cast hcs

/-- C5 counterexample: the claim as stated fails.  For the dense pair
`[1]` and `[-1]` the computed cosine similarity is `-1`, outside `[0, 1]`
(negative entries occur in real embeddings; the `[0, 1]` guarantee only
holds for non-negative weights). -/
theorem C5_counterexample :
    calculateCosineSimilarity (some (Vec.dense [1])) (some (Vec.dense [-1])) = -1 ∧
    calculateCosineSimilarity (some (Vec.dense [1])) (some (Vec.dense [-1])) ∉
      Set.Icc (0 : ℝ) 1 := by
  have hval : calculateCosineSimilarity (some (Vec.dense [1]))
      (some (Vec.dense [-1])) = -1 := by
    show calculateArrayCosineSimilarity [1] [-1] = -1
    unfold calculateArrayCosineSimilarity cosineFromSums
    have hdot : arrDot [1] [-1] = -1 := by
      simp [arrDot, arrLen, denseEntry]
    have hn1 : arrNorm1 [1] [-1] = 1 := by
      simp [arrNorm1, arrLen, denseEntry]
    have hn2 : arrNorm2 [1] [-1] = 1 := by
      simp [arrNorm2, arrLen, denseEntry]
    rw [hdot, hn1, hn2, if_neg (by norm_num)]
    rw [show ((1 : ℚ) : ℝ) = 1 by norm_num, Real.sqrt_one]
    norm_num
  refine ⟨hval, ?_⟩
  rw [hval, Set.mem_Icc]
  intro hmem
  have := hmem.1
  norm_num at this

/-- C5 (amended): for every pair of vectors with non-negative entries
(sparse-sparse or dense-dense, including zero-norm and mismatched-length
cases — and also mixed pairs, which score `0`), `calculateCosineSimilarity`
returns a number in the closed interval `[0, 1]`. -/
theorem C5_amended_similarity_in_unit_interval (v1 v2 : Vec)
    (h1 : v1.nonnegEntries = true) (h2 : v2.nonnegEntries = true) :
    calculateCosineSimilarity (some v1) (some v2) ∈ Set.Icc (0 : ℝ) 1 := by
  cases v1 with
  | sparse a =>
    cases v2 with
    | sparse b =>
      have ha : ∀ p ∈ a, 0 ≤ p.2 := by
        simpa only [Vec.nonnegEntries, List.all_eq_true, decide_eq_true_eq] using h1
      have hb : ∀ p ∈ b, 0 ≤ p.2 := by
        simpa only [Vec.nonnegEntries, List.all_eq_true, decide_eq_true_eq] using h2
      show calculateObjectCosineSimilarity a b ∈ Set.Icc (0 : ℝ) 1
      unfold calculateObjectCosineSimilarity
      exact cosineFromSums_mem_Icc _ _ _ (objDot_nonneg a b ha hb)
        (objNorm1_nonneg a b) (objNorm2_nonneg a b) (objDot_sq_le a b)
    | dense b =>
      exact Set.mem_Icc.mpr ⟨le_refl 0, zero_le_one⟩
  | dense a =>
    cases v2 with
    | sparse b =>
      exact Set.mem_Icc.mpr ⟨le_refl 0, zero_le_one⟩
    | dense b =>
      have ha : ∀ x ∈ a, 0 ≤ x := by
        simpa only [Vec.nonnegEntries, List.all_eq_true, decide_eq_true_eq] using h1
      have hb : ∀ x ∈ b, 0 ≤ x := by
        simpa only [Vec.nonnegEntries, List.all_eq_true, decide_eq_true_eq] using h2
      show calculateArrayCosineSimilarity a b ∈ Set.Icc (0 : ℝ) 1
      unfold calculateArrayCosineSimilarity
      exact cosineFromSums_mem_Icc _ _ _ (arrDot_nonneg a b ha hb)
        (arrNorm1_nonneg a b) (arrNorm2_nonneg a b) (arrDot_sq_le a b)

/-- Witness for C5 (amended) at a concrete non-negative sparse pair with a
zero-norm case exercised through the empty second vector. -/
theorem C5_witness :
    calculateCosineSimilarity (some (Vec.sparse [("ab", 2), ("cd", 1)]))
        (some (Vec.sparse [])) ∈ Set.Icc (0 : ℝ) 1 :=
  C5_amended_similarity_in_unit_interval _ _ (by decide) (by decide)

/-- The formatted chunk list never exceeds `maxRetrieveCount`. -/
theorem relevantChunksOf_length_le (st : ManagerState)
    (cv : List (String × ℚ)) :
    (relevantChunksOf st cv).length ≤ st.maxRetrieveCount := by
  unfold relevantChunksOf relevantConversations
  rw [List.length_map]
  exact List.length_take_le _ _

/-- Every formatted chunk passed the `minSimilarityThreshold` filter. -/
theorem relevantChunksOf_threshold (st : ManagerState) (cv : List (String × ℚ)) :
    ∀ c ∈ relevantChunksOf st cv,
      (st.minSimilarityThreshold : ℝ) ≤ c.similarity := by
  intro c hc
  unfold relevantChunksOf at hc
  obtain ⟨e, he, rfl⟩ := List.mem_map.mp hc
  unfold relevantConversations at he
  have h1 := List.mem_of_mem_take he
  have h2 := (List.perm_insertionSort _ _).mem_iff.mp h1
  have h3 := List.mem_filter.mp h2
  exact of_decide_eq_true h3.2

/-- The formatted chunk list is ordered by descending similarity. -/
theorem relevantChunksOf_sorted (st : ManagerState) (cv : List (String × ℚ)) :
    (relevantChunksOf st cv).Pairwise
      (fun a b => b.similarity ≤ a.similarity) := by
  unfold relevantChunksOf relevantConversations
  haveI : IsTotal SimEntry (fun a b => b.similarity ≤ a.similarity) :=
    ⟨fun a b => le_total b.similarity a.similarity⟩
  haveI : IsTrans SimEntry (fun a b => b.similarity ≤ a.similarity) :=
    ⟨fun _ _ _ hab hbc => le_trans hbc hab⟩
  have hsorted := List.sorted_insertionSort
    (fun a b : SimEntry => b.similarity ≤ a.similarity)
    ((querySimilarities st cv).filter
      (fun item => decide ((st.minSimilarityThreshold : ℝ) ≤ item.similarity)))
  have htake := List.Pairwise.sublist (List.take_sublist st.maxRetrieveCount _) hsorted
  exact List.Pairwise.map _ (fun _ _ h => h) htake

/-- C2: for every store state, query text and configuration, the retrieval
result contains at most `maxRetrieveCount` entries, every entry has
similarity `≥ minSimilarityThreshold`, and the entries are ordered by
descending similarity. -/
theorem C2_retrieval_bounded_filtered_sorted (st : ManagerState)
    (currentInput : String) (recentHistory : List Message) :
    (retrieveRelevantContext st currentInput recentHistory).2.relevantChunks.length ≤
      st.maxRetrieveCount ∧
    (∀ c ∈ (retrieveRelevantContext st currentInput recentHistory).2.relevantChunks,
      (st.minSimilarityThreshold : ℝ) ≤ c.similarity) ∧
    (retrieveRelevantContext st currentInput recentHistory).2.relevantChunks.Pairwise
      (fun a b => b.similarity ≤ a.similarity) := by
  unfold retrieveRelevantContext
  split
  · simp
  · split
    · simp
    · exact ⟨relevantChunksOf_length_le st _, relevantChunksOf_threshold st _,
        relevantChunksOf_sorted st _⟩

/-- Witness for C3: upserting the already-present turn 1 into the one-entry
store `c3Store` keeps its size at one entry. -/
theorem C3_witness :
    (addConversation c3Store "城镇 购买" "铁剑 城镇" 1 {} BackendResult.threw
        4).conversationEmbeddings.length = c3Store.conversationEmbeddings.length :=
  (C3_turnIndex_unique_and_upsert_replaces c3Store "城镇 购买" "铁剑 城镇" 1 {}
      BackendResult.threw 4 (by decide)).2.1 (by decide)

end ContextVectorManager
